import Mathlib

/-!
Shallow embedding of the selective extraction engine of
`selective_web_reader/selective_web_reader.py` (class `SelectiveWebReader`):
URL-pattern rule resolution (`_get_selectors`), the fetch-with-retry loop
(`_load_html`), the include/remove selector pipeline (`_skim_relevant`),
link absolutization (`_make_links_absolute`), the deduplicated journals of
unmatched and errored URLs, and the orchestration (`load_website`).

File I/O is embedded as explicit journal-list state passed in and out; the
network is embedded as an oracle mapping each attempt number to either an
error description or a fetched response; the third-party markup capability
(bs4 parse / CSS select / extract / serialize) is embedded as executable
functions on an explicit element tree, covering the plain tag-name selector
fragment that the rules in question use.
-/

/-- Python `p.isPrefixOf`-style check on character lists:
does the first list occur at the head of the second. -/
def listLeads : List Char → List Char → Bool
| [], _ => true
| _ :: _, [] => false
| p :: ps, c :: cs => p = c && listLeads ps cs

/-- All suffixes of a list, longest first (the list itself included). -/
def listTails : List Char → List (List Char)
| [] => [[]]
| c :: cs => (c :: cs) :: listTails cs

/-- Python substring containment `pat in s`, as used by
`_get_selectors` for `url_pattern in url`. -/
def containsSub (pat s : String) : Bool :=
  (listTails s.data).any (fun t => listLeads pat.data t)

/-- One persisted journal line: the code writes objects
`{url: ..., errors: ...}` (the unmatched journal omits `errors`,
embedded here as the empty list). -/
structure JournalEntry where
  url : String
  errors : List String
deriving DecidableEq, Repr

/-- The deduplicating read-modify-write performed (inline, identically) by
`_get_selectors` on the unconfigured-URLs file and by `_load_html` on the
errored-URLs file: if the url is not among the recorded urls, append the
entry and persist; otherwise perform no write and signal a duplicate
(the returned Bool, `true` when the url was already present). -/
def record (journal : List JournalEntry) (url : String) (errors : List String) :
    List JournalEntry × Bool :=
  if (journal.map JournalEntry.url).contains url then (journal, true)
  else (journal ++ [{ url := url, errors := errors }], false)

/-- The per-pattern selector configuration stored in `url_configs`
(field names follow the JSON keys of the rule file). -/
structure Selectors where
  include_selectors : List String
  remove_selectors : List String
deriving DecidableEq, Repr

/-- `url_configs` is a Python dict pattern -> selectors; dicts iterate in
insertion order, embedded as an association list in insertion order. -/
def RuleTable : Type := List (String × Selectors)

/-- The loop `for url_pattern in self.url_configs.keys(): if url_pattern in
url: return self.url_configs[url_pattern]` of `_get_selectors`: first
pattern (in insertion order) that is a substring of the url wins. -/
def findRule : List (String × Selectors) → String → Option Selectors
| [], _ => none
| (p, sel) :: rest, url => if containsSub p url then some sel else findRule rest url

/-- Exact-key lookup `self.url_configs[pat]` on the insertion-ordered dict. -/
def lookupPattern : List (String × Selectors) → String → Option Selectors
| [], _ => none
| (p, sel) :: rest, pat => if p = pat then some sel else lookupPattern rest pat

/-- `_get_selectors(url, include_default)`: scan patterns in insertion order
and return the first whose string is a substring of the url; on no match,
journal the url into the unconfigured-URLs file (deduplicated), then return
the `_default_` rule when present and requested, else none.  Returns the
resolved selectors together with the updated unmatched journal. -/
def getSelectors (table : List (String × Selectors)) (journal : List JournalEntry)
    (url : String) (includeDefault : Bool) : Option Selectors × List JournalEntry :=
  match findRule table url with
  | some sel => (some sel, journal)
  | none =>
    let journal2 := (record journal url []).1
    if (lookupPattern table "_default_").isSome && includeDefault then
      (lookupPattern table "_default_", journal2)
    else (none, journal2)

/-- A raw HTTP response as `_load_html` sees it: the body bytes returned by
`response.read()` and the charset the server declared or implied (present on
the wire; the code never consults it). -/
structure Fetched where
  body : List Nat
  encoding : String
deriving DecidableEq, Repr

/-- UTF-8 decoding of a byte list, as Python `bytes.decode('utf-8')`:
none on any malformed, overlong, surrogate or out-of-range sequence. -/
def utf8DecodeList : List Nat → Option (List Char)
| [] => some []
| b :: rest =>
  if b < 0x80 then
    (utf8DecodeList rest).map (fun cs => Char.ofNat b :: cs)
  else if 0xC2 ≤ b ∧ b ≤ 0xDF then
    match rest with
    | b2 :: rest2 =>
      if 0x80 ≤ b2 ∧ b2 ≤ 0xBF then
        (utf8DecodeList rest2).map (fun cs => Char.ofNat ((b - 0xC0) * 64 + (b2 - 0x80)) :: cs)
      else none
    | [] => none
  else if 0xE0 ≤ b ∧ b ≤ 0xEF then
    match rest with
    | b2 :: b3 :: rest3 =>
      if (0x80 ≤ b2 ∧ b2 ≤ 0xBF) ∧ (0x80 ≤ b3 ∧ b3 ≤ 0xBF) then
        let cp := (b - 0xE0) * 4096 + (b2 - 0x80) * 64 + (b3 - 0x80)
        if cp < 0x800 ∨ (0xD800 ≤ cp ∧ cp ≤ 0xDFFF) then none
        else (utf8DecodeList rest3).map (fun cs => Char.ofNat cp :: cs)
      else none
    | _ => none
  else if 0xF0 ≤ b ∧ b ≤ 0xF4 then
    match rest with
    | b2 :: b3 :: b4 :: rest4 =>
      if (0x80 ≤ b2 ∧ b2 ≤ 0xBF) ∧ (0x80 ≤ b3 ∧ b3 ≤ 0xBF) ∧ (0x80 ≤ b4 ∧ b4 ≤ 0xBF) then
        let cp := (b - 0xF0) * 262144 + (b2 - 0x80) * 4096 + (b3 - 0x80) * 64 + (b4 - 0x80)
        if cp < 0x10000 ∨ 0x10FFFF < cp then none
        else (utf8DecodeList rest4).map (fun cs => Char.ofNat cp :: cs)
      else none
    | _ => none
  else none

/-- `bytes.decode('utf-8')` producing a string. -/
def decodeUtf8 (bs : List Nat) : Option String :=
  (utf8DecodeList bs).map (fun cs => String.mk cs)

/-- `bytes.decode('latin-1')`: every byte maps to the code point of the
same value. -/
def decodeLatin1 (bs : List Nat) : Option String :=
  if bs.all (fun b => b < 256) then some (String.mk (bs.map (fun b => Char.ofNat b)))
  else none

/-- Modelled from the spec: decoding a body "using the server's declared or
implied character encoding" — dispatch on the declared charset.  This is the
spec-side comparison point for the decoding step; the source decodes with a
fixed `'utf-8'` instead. -/
def specDeclaredDecode (enc : String) (bs : List Nat) : Option String :=
  if enc = "utf-8" then decodeUtf8 bs
  else if enc = "latin-1" || enc = "iso-8859-1" then decodeLatin1 bs
  else none

/-- The retry loop of `_load_html`: `while attempt <= max_retries`, embedded
with `fuel = max_retries + 1 - attempt` remaining iterations.  Each
iteration consults the network oracle for that attempt number; an exception
(transport error, or a body that is not valid UTF-8) appends its description
to `errors` and the loop retries after sleeping; a successful decoded body
returns immediately.  Falling out of the loop reports the accumulated
error list. -/
def loadHtmlLoop (attempts : Nat → Except String Fetched) :
    Nat → Nat → List String → Except (List String) String
| 0, _, errors => Except.error errors
| fuel + 1, attemptIdx, errors =>
  match attempts attemptIdx with
  | Except.ok f =>
    match decodeUtf8 f.body with
    | some s => Except.ok s
    | none => loadHtmlLoop attempts fuel (attemptIdx + 1) (errors ++ ["UnicodeDecodeError"])
  | Except.error e => loadHtmlLoop attempts fuel (attemptIdx + 1) (errors ++ [e])

/-- `_load_html(url, ..., max_retries, ...)`: run the retry loop from
attempt 0; on success return the decoded html (journal untouched); on
exhaustion journal the url with its accumulated errors into the errored-URLs
file (deduplicated) and return none. -/
def loadHtml (attempts : Nat → Except String Fetched) (maxRetries : Nat)
    (url : String) (errored : List JournalEntry) :
    Option String × List JournalEntry :=
  match loadHtmlLoop attempts (maxRetries + 1) 0 [] with
  | Except.ok s => (some s, errored)
  | Except.error errs => (none, (record errored url errs).1)

mutual
/-- A parsed markup element tree, the shape bs4 hands back: a text node or
an element with a tag name, an ordered attribute list and child nodes. -/
inductive Node where
| text (s : String)
| elem (tag : String) (attrs : List (String × String)) (children : Forest)
deriving DecidableEq, Repr
/-- An ordered sequence of sibling nodes (a soup's top level, or the
children of an element). -/
inductive Forest where
| nil
| cons (hd : Node) (tl : Forest)
deriving DecidableEq, Repr
end

/-- Concatenation of sibling sequences. -/
def forestAppend : Forest → Forest → Forest
| Forest.nil, g => g
| Forest.cons n f, g => Forest.cons n (forestAppend f g)

/-- Rebuild a sibling sequence from a plain list of nodes: the re-parse of
the concatenation of the serialized selected tags in `_skim_relevant`. -/
def forestOfList : List Node → Forest
| [] => Forest.nil
| n :: ns => Forest.cons n (forestOfList ns)

/-- Serialization of an attribute list, `key="value"` pairs in order. -/
def serializeAttrs : List (String × String) → String
| [] => ""
| (k, v) :: rest => " " ++ k ++ "=\"" ++ v ++ "\"" ++ serializeAttrs rest

mutual
/-- bs4 `str(tag)`: tag with attributes, serialized children, closing tag. -/
def serializeNode : Node → String
| Node.text s => s
| Node.elem tag attrs children =>
  "<" ++ tag ++ serializeAttrs attrs ++ ">" ++ serializeForest children ++ "</" ++ tag ++ ">"
/-- bs4 `str(soup)`: concatenation of the serialized top-level nodes. -/
def serializeForest : Forest → String
| Forest.nil => ""
| Forest.cons n f => serializeNode n ++ serializeForest f
end

/-- One indentation level per tree depth, as bs4 `prettify` emits. -/
def indentStr : Nat → String
| 0 => ""
| d + 1 => " " ++ indentStr d

mutual
/-- bs4 `soup.prettify()`: every tag and string on its own indented line. -/
def prettifyNode (depth : Nat) : Node → String
| Node.text s => indentStr depth ++ s ++ "\n"
| Node.elem tag attrs children =>
  indentStr depth ++ "<" ++ tag ++ serializeAttrs attrs ++ ">" ++ "\n"
  ++ prettifyForest (depth + 1) children
  ++ indentStr depth ++ "</" ++ tag ++ ">" ++ "\n"
/-- `prettify` over a sibling sequence; the empty soup prettifies to "". -/
def prettifyForest (depth : Nat) : Forest → String
| Forest.nil => ""
| Forest.cons n f => prettifyNode depth n ++ prettifyForest depth f
end

/-- The CSS-selector match test of the markup-query capability, for the
plain tag-name selector fragment used by the rules under study: selector
`s` matches an element exactly when it equals its tag name. -/
def selMatches (sel tag : String) : Bool := sel = tag

mutual
/-- bs4 `soup.select(sel)` restricted to one node: all matching elements in
document (pre-)order, a matching element listed before its matching
descendants. -/
def selectNode (sel : String) : Node → List Node
| Node.text _ => []
| Node.elem tag attrs children =>
  if selMatches sel tag then Node.elem tag attrs children :: selectForest sel children
  else selectForest sel children
/-- bs4 `soup.select(sel)` over a sibling sequence, in document order. -/
def selectForest (sel : String) : Forest → List Node
| Forest.nil => []
| Forest.cons n f => selectNode sel n ++ selectForest sel f
end

mutual
/-- The effect of `for tag in soup.select(sel): tag.extract()` on one node:
a matching element disappears with its whole subtree, a non-matching one is
kept with the removal applied to its children. -/
def removeNode (sel : String) : Node → Forest
| Node.text s => Forest.cons (Node.text s) Forest.nil
| Node.elem tag attrs children =>
  if selMatches sel tag then Forest.nil
  else Forest.cons (Node.elem tag attrs (removeForest sel children)) Forest.nil
/-- Removal of every element matching `sel` (with its subtree) from a
sibling sequence. -/
def removeForest (sel : String) : Forest → Forest
| Forest.nil => Forest.nil
| Forest.cons n f => forestAppend (removeNode sel n) (removeForest sel f)
end

/-- Where the unbound `selected_soup` surfaces in `_skim_relevant` when
`remove_selectors` is empty. -/
def unboundLocalMsg : String :=
  "UnboundLocalError: local variable selected_soup referenced before assignment"

/-- The remove loop of `_skim_relevant`, literally: `selected_soup` starts
unassigned (none); each iteration re-parses the SAME `selected_html` string
(which the loop never updates) and extracts that selector's matches from the
fresh parse, discarding the previous iteration's soup.  An empty selector
list leaves `selected_soup` unassigned. -/
def excludeLoop (selectedHtml : Forest) (removes : List String) : Option Forest :=
  removes.foldl (fun _ sel => some (removeForest sel selectedHtml)) none

/-- `_skim_relevant` at tree level: concatenate, selector-major then
document order, every element matched by an include selector into
`selected_html`; then run the remove loop over that parse; reading
`selected_soup` after an empty loop raises UnboundLocalError. -/
def skimForest (doc : Forest) (sel : Selectors) : Except String Forest :=
  let selected := forestOfList
    (sel.include_selectors.flatMap (fun s => selectForest s doc))
  match excludeLoop selected sel.remove_selectors with
  | none => Except.error unboundLocalMsg
  | some f => Except.ok f

/-- `_skim_relevant(html, selectors)`: the tree-level skim followed by
`selected_soup.prettify()`. -/
def skimRelevant (doc : Forest) (sel : Selectors) : Except String String :=
  (skimForest doc sel).map (fun f => prettifyForest 0 f)

/-- Leading-scheme split of a URL, as `urlsplit` recognises it: a nonempty
run of scheme characters (first alphabetic) closed by a colon. -/
def schemeChar (c : Char) : Bool :=
  c.isAlpha || c.isDigit || c = '+' || c = '-' || c = '.'

/-- Scheme and remainder of `s`, when `s` is of the form `scheme:rest`. -/
def splitScheme (cs : List Char) : Option (List Char × List Char) :=
  let pre := cs.takeWhile (fun c => c ≠ ':')
  let post := cs.drop pre.length
  match post with
  | ':' :: rest =>
    match pre with
    | [] => none
    | c0 :: _ => if c0.isAlpha && pre.all schemeChar then some (pre, rest) else none
  | _ => none

/-- Whether a reference carries its own scheme (an absolute URL such as
`https://y.test/z`, or `mailto:x`). -/
def hasScheme (s : String) : Bool := (splitScheme s.data).isSome

/-- `scheme://netloc` of an absolute base URL, the part a root-relative
reference keeps. -/
def schemeNetloc (base : String) : String :=
  match splitScheme base.data with
  | none => ""
  | some (sch, rest) =>
    match rest with
    | '/' :: '/' :: tl => String.mk (sch ++ (':' :: '/' :: '/' :: tl.takeWhile (fun c => c ≠ '/')))
    | _ => String.mk (sch ++ [':'])

/-- The path component of an absolute base URL (leading slash included). -/
def pathOf (base : String) : String :=
  match splitScheme base.data with
  | none => base
  | some (_, rest) =>
    match rest with
    | '/' :: '/' :: tl => String.mk (tl.dropWhile (fun c => c ≠ '/'))
    | other => String.mk other

/-- A path truncated after its last slash, the directory a plain relative
reference resolves in. -/
def dirOf (path : String) : String :=
  String.mk ((path.data.reverse.dropWhile (fun c => c ≠ '/')).reverse)

/-- `urllib.parse.urljoin(base, url)` for the reference shapes the engine
meets: a reference with its own scheme is returned unchanged, `//host/...`
keeps the base scheme, a root-relative `/p` keeps `scheme://netloc`, a plain
relative reference resolves in the directory of the base path, and the empty
reference yields the base. -/
def urljoin (base url : String) : String :=
  if url = "" then base
  else if hasScheme url then url
  else if listLeads "//".data url.data then
    (match splitScheme base.data with
     | some (sch, _) => String.mk sch ++ ":" ++ url
     | none => url)
  else if listLeads "/".data url.data then schemeNetloc base ++ url
  else schemeNetloc base ++ dirOf (pathOf base) ++ url

mutual
/-- `_make_links_absolute` on one node: `soup.find_all('a', href=True)`
visits every `a` element carrying an `href`, and `link['href'] =
urljoin(url, link['href'])` rewrites that attribute in place; everything
else is untouched. -/
def absolutizeNode (base : String) : Node → Node
| Node.text s => Node.text s
| Node.elem tag attrs children =>
  let attrs2 :=
    if tag = "a" && (attrs.map Prod.fst).contains "href" then
      attrs.map (fun kv => if kv.1 = "href" then (kv.1, urljoin base kv.2) else kv)
    else attrs
  Node.elem tag attrs2 (absolutizeForest base children)
/-- `_make_links_absolute` over a sibling sequence. -/
def absolutizeForest (base : String) : Forest → Forest
| Forest.nil => Forest.nil
| Forest.cons n f => Forest.cons (absolutizeNode base n) (absolutizeForest base f)
end

mutual
/-- Modelled from the spec: the Absolutize stage as §4.3 words it — "for
every hyperlink-bearing element, rewrite a relative reference into an
absolute URL resolved against base_url; non-hyperlink content is untouched"
— an already-absolute href is left exactly as it was. -/
def specAbsolutizeNode (base : String) : Node → Node
| Node.text s => Node.text s
| Node.elem tag attrs children =>
  let attrs2 :=
    if tag = "a" then
      attrs.map (fun kv =>
        if kv.1 = "href" && !hasScheme kv.2 then (kv.1, urljoin base kv.2) else kv)
    else attrs
  Node.elem tag attrs2 (specAbsolutizeForest base children)
/-- Modelled from the spec: the Absolutize stage over a sibling sequence. -/
def specAbsolutizeForest (base : String) : Forest → Forest
| Forest.nil => Forest.nil
| Forest.cons n f => Forest.cons (specAbsolutizeNode base n) (specAbsolutizeForest base f)
end

/-- How a `load_website` call ends: the ValueError raised when no
configuration resolves; the TypeError raised when `_load_html` returned
None and `_make_links_absolute` hands it to BeautifulSoup; or an exception
escaping `_skim_relevant`, re-raised by the `except` clause. -/
inductive LoadError where
| noConfiguration (url : String)
| typeErrorNoneHtml
| extractionError (msg : String)
deriving DecidableEq, Repr

/-- Result of one `load_website` call together with the journal files it
leaves behind. -/
structure LoadOutcome where
  result : Except LoadError String
  unconfigured : List JournalEntry
  errored : List JournalEntry

/-- `load_website(url, ..., max_retries, ..., download_unconfigured)`:
resolve selectors (journaling unmatched URLs); without a rule raise
ValueError; with one, fetch with retries (journaling exhausted URLs), pass
the result — None included — to `_make_links_absolute`, where BeautifulSoup
raises TypeError on None; then `_skim_relevant` over the re-parse of the
absolutized serialization, re-raising whatever it raises.  `parse` is the
markup-parsing capability (bs4 html.parser). -/
def loadWebsite (parse : String → Forest) (table : List (String × Selectors))
    (unconfigured errored : List JournalEntry)
    (attempts : Nat → Except String Fetched) (url : String) (maxRetries : Nat)
    (downloadUnconfigured : Bool) : LoadOutcome :=
  match getSelectors table unconfigured url downloadUnconfigured with
  | (none, unconfigured2) =>
    { result := Except.error (LoadError.noConfiguration url),
      unconfigured := unconfigured2, errored := errored }
  | (some sel, unconfigured2) =>
    match loadHtml attempts maxRetries url errored with
    | (none, errored2) =>
      { result := Except.error LoadError.typeErrorNoneHtml,
        unconfigured := unconfigured2, errored := errored2 }
    | (some html, errored2) =>
      let absHtml := serializeForest (absolutizeForest url (parse html))
      match skimRelevant (parse absHtml) sel with
      | Except.error e =>
        { result := Except.error (LoadError.extractionError e),
          unconfigured := unconfigured2, errored := errored2 }
      | Except.ok s =>
        { result := Except.ok s, unconfigured := unconfigured2, errored := errored2 }

theorem loadHtmlLoop_allFail (attempts : Nat → Except String Fetched) (e : Nat → String) :
    ∀ (fuel start : Nat) (errs : List String),
    (∀ i, start ≤ i → i < start + fuel → attempts i = Except.error (e i)) →
    loadHtmlLoop attempts fuel start errs = Except.error (errs ++ (List.range' start fuel).map e)
| 0, start, errs, _ => by simp [loadHtmlLoop]
| fuel + 1, start, errs, h => by
  have h0 : attempts start = Except.error (e start) := h start le_rfl (by omega)
  rw [loadHtmlLoop, h0]
  show loadHtmlLoop attempts fuel (start + 1) (errs ++ [e start]) =
    Except.error (errs ++ (List.range' start (fuel + 1)).map e)
  rw [loadHtmlLoop_allFail attempts e fuel (start + 1) (errs ++ [e start])
    (fun i hi1 hi2 => h i (by omega) (by omega))]
  simp [List.range'_succ]

theorem findRule_append (pre rest : List (String × Selectors)) (url : String)
    (h : ∀ q ∈ pre, containsSub q.1 url = false) :
    findRule (pre ++ rest) url = findRule rest url := by
  induction pre with
  | nil => rfl
  | cons q qs ih =>
    obtain ⟨p, sel⟩ := q
    rw [List.cons_append, findRule]
    rw [h (p, sel) (List.mem_cons_self _ _)]
    exact ih (fun q hq => h q (List.mem_cons_of_mem _ hq))

theorem findRule_none (table : List (String × Selectors)) (url : String)
    (h : ∀ q ∈ table, containsSub q.1 url = false) :
    findRule table url = none := by
  have := findRule_append table [] url h
  simpa using this

/-- Claim C3: for every URL and every max_retries value n, a fetch whose
every attempt fails performs exactly n + 1 total attempts and reports
exhaustion carrying exactly n + 1 accumulated error descriptions, one per
failed attempt, in attempt order (journaled with the URL); in particular
max_retries = 2 gives exactly 3 attempts and 3 error entries. -/
theorem c3_exhausted_attempts (attempts : Nat → Except String Fetched)
    (e : Nat → String) (n : Nat) (url : String) (j : List JournalEntry)
    (h : ∀ i, i ≤ n → attempts i = Except.error (e i)) :
    loadHtml attempts n url j = (none, (record j url ((List.range (n + 1)).map e)).1)
    ∧ ((List.range (n + 1)).map e).length = n + 1 := by
  have hloop := loadHtmlLoop_allFail attempts e (n + 1) 0 []
    (fun i hi1 hi2 => h i (by omega))
  constructor
  · rw [loadHtml, hloop]
    simp [List.range_eq_range']
  · simp

theorem c3_witness :
    loadHtml (fun _ => Except.error "boom") 2 "https://u.test/a" [] =
      (none, (record [] "https://u.test/a" ((List.range 3).map (fun _ => "boom"))).1)
    ∧ ((List.range 3).map (fun _ : Nat => "boom")).length = 3 :=
  c3_exhausted_attempts (fun _ => Except.error "boom") (fun _ => "boom") 2
    "https://u.test/a" [] (fun _ _ => rfl)

/-- Claim C4: for every rule table and URL, and every pair of patterns P1
inserted before P2 that are both substrings of the URL, resolution returns
the rule registered for P1 once no earlier pattern matches: `_get_selectors`
iterates patterns in insertion order and returns the rule of the first
pattern occurring anywhere inside the URL as a substring (and, having
matched, leaves the unmatched journal untouched). -/
theorem c4_first_match_wins (pre mid post : List (String × Selectors))
    (p1 p2 : String) (r1 r2 : Selectors) (url : String)
    (j : List JournalEntry) (d : Bool)
    (hpre : ∀ q ∈ pre, containsSub q.1 url = false)
    (h1 : containsSub p1 url = true)
    (_h2 : containsSub p2 url = true) :
    getSelectors (pre ++ ((p1, r1) :: (mid ++ ((p2, r2) :: post)))) j url d = (some r1, j) := by
  rw [getSelectors,
    findRule_append pre ((p1, r1) :: (mid ++ ((p2, r2) :: post))) url hpre, findRule, h1]
  simp

def selA : Selectors := { include_selectors := ["article"], remove_selectors := ["script"] }
def selB : Selectors := { include_selectors := ["p"], remove_selectors := ["nav"] }
def selC : Selectors := { include_selectors := ["h1"], remove_selectors := ["form"] }

theorem c4_witness :
    getSelectors ([("zzz", selC)] ++ (("example.com/blog", selA) :: ([] ++ ((".com", selB) :: []))))
      [] "https://example.com/blog/post1" false = (some selA, []) :=
  c4_first_match_wins [("zzz", selC)] [] [] "example.com/blog" ".com" selA selB
    "https://example.com/blog/post1" [] false (by decide) (by decide) (by decide)

theorem contains_false_filter_nil (j : List JournalEntry) (url : String)
    (h : (j.map JournalEntry.url).contains url = false) :
    j.filter (fun en => en.url == url) = [] := by
  induction j with
  | nil => rfl
  | cons x xs ih =>
    rw [List.map_cons, List.contains_cons] at h
    rw [Bool.or_eq_false_iff] at h
    rw [List.filter_cons]
    have hx : (x.url == url) = false := by
      have h1 := h.1
      simp only [beq_eq_false_iff_ne] at h1 ⊢
      exact fun he => h1 he.symm
    rw [hx]
    simpa using ih h.2

/-- Claim C5: recording the same URL twice into a journal leaves exactly
one persisted entry for that URL: the second record is a no-op write that
signals a duplicate, so the persisted list never gains two entries with the
same url.  `record` is the identical inline routine of both the
unmatched-URL and the failed-URL journal. -/
theorem c5_record_dedup (j : List JournalEntry) (url : String) (e1 e2 : List String)
    (h : (j.map JournalEntry.url).contains url = false) :
    record ((record j url e1).1) url e2 = ((record j url e1).1, true)
    ∧ (((record j url e1).1).filter (fun en => en.url == url)).length = 1 := by
  have hrec1 : (record j url e1).1 = j ++ [({ url := url, errors := e1 } : JournalEntry)] := by
    rw [record, h]
    simp
  have hc : ((j ++ [({ url := url, errors := e1 } : JournalEntry)]).map
      JournalEntry.url).contains url = true := by
    simp
  constructor
  · rw [hrec1, record, hc]
    simp
  · rw [hrec1, List.filter_append, contains_false_filter_nil j url h]
    simp

theorem c5_witness :
    record ((record [] "https://w.test" ["a"]).1) "https://w.test" ["b"]
      = ((record [] "https://w.test" ["a"]).1, true)
    ∧ (((record [] "https://w.test" ["a"]).1).filter
        (fun en => en.url == "https://w.test")).length = 1 :=
  c5_record_dedup [] "https://w.test" ["a"] ["b"] rfl

deriving instance DecidableEq for Except

theorem excludeLoop_nil_doc (l : List String) (h : l ≠ []) :
    ∀ acc : Option Forest,
    List.foldl (fun _ sel => some (removeForest sel Forest.nil)) acc l = some Forest.nil := by
  induction l with
  | nil => exact absurd rfl h
  | cons x xs ih =>
    intro acc
    rw [List.foldl_cons]
    cases xs with
    | nil => rfl
    | cons y ys => exact ih (by simp) _

/-- Claim C6 (amended): for every markup and every rule whose include list
is empty AND whose remove list is non-empty, extraction returns the empty
serialized markup string without error.  (As stated, with a remove list
that is also empty, extraction raises UnboundLocalError instead — see the
counterexample.) -/
theorem c6_empty_include (doc : Forest) (sel : Selectors)
    (hinc : sel.include_selectors = [])
    (hrem : sel.remove_selectors ≠ []) :
    skimRelevant doc sel = Except.ok "" := by
  rw [skimRelevant, skimForest, hinc]
  have h1 : forestOfList (([] : List String).flatMap (fun s => selectForest s doc))
      = Forest.nil := rfl
  rw [h1, excludeLoop, excludeLoop_nil_doc sel.remove_selectors hrem none]
  rfl

theorem c6_witness : skimRelevant Forest.nil
    { include_selectors := [], remove_selectors := ["script"] } = Except.ok "" :=
  c6_empty_include Forest.nil _ rfl (by simp)

/-- Claim C6 counterexample: a rule with empty include list and empty
remove list makes `_skim_relevant` raise UnboundLocalError rather than
return the empty document without error. -/
theorem c6_counterexample :
    skimRelevant Forest.nil { include_selectors := [], remove_selectors := [] }
      = Except.error unboundLocalMsg
    ∧ skimRelevant Forest.nil { include_selectors := [], remove_selectors := [] }
      ≠ Except.ok "" := by
  constructor
  · rfl
  · decide

/-- Claim C9: for every markup and every rule whose remove_selectors list
is empty, extraction does not return a result: `selected_soup` is only
assigned inside the loop over remove selectors, so `_skim_relevant` raises
UnboundLocalError; and the branch is reachable at the public interface
(`load_website` surfaces it as a re-raised extraction error for a
configured rule with no remove selectors). -/
theorem c9_unbound_local :
    (∀ (doc : Forest) (sel : Selectors), sel.remove_selectors = [] →
      skimRelevant doc sel = Except.error unboundLocalMsg)
    ∧ (loadWebsite (fun _ => Forest.nil)
        [("site", { include_selectors := ["p"], remove_selectors := [] })] [] []
        (fun _ => Except.ok { body := [104], encoding := "utf-8" })
        "https://site/a" 0 false).result
      = Except.error (LoadError.extractionError unboundLocalMsg) := by
  constructor
  · intro doc sel h
    rw [skimRelevant, skimForest, h]
    rfl
  · rfl

theorem c9_witness :
    skimRelevant Forest.nil { include_selectors := ["q"], remove_selectors := [] }
      = Except.error unboundLocalMsg :=
  c9_unbound_local.1 Forest.nil { include_selectors := ["q"], remove_selectors := [] } rfl

/-- Claim C10: for every URL matching no registered pattern,
`_get_selectors` appends the URL to the unmatched-URL journal (subject to
dedup) even when the default is requested and a "_default_" rule exists and
is then returned: a default-resolved URL is still journaled as unmatched
although the call succeeds with a rule. -/
theorem c10_default_still_journals (table : List (String × Selectors))
    (j : List JournalEntry) (url : String)
    (hnone : ∀ q ∈ table, containsSub q.1 url = false)
    (hdef : (lookupPattern table "_default_").isSome = true) :
    getSelectors table j url true = (lookupPattern table "_default_", (record j url []).1)
    ∧ (getSelectors table j url true).1.isSome = true := by
  have hmain : getSelectors table j url true
      = (lookupPattern table "_default_", (record j url []).1) := by
    rw [getSelectors, findRule_none table url hnone, hdef]
    simp
  exact ⟨hmain, by rw [hmain]; exact hdef⟩

def selD : Selectors := { include_selectors := ["main"], remove_selectors := ["iframe"] }

theorem c10_witness :
    getSelectors [("_default_", selD)] [] "https://nobody.test/x" true
      = (lookupPattern [("_default_", selD)] "_default_",
         (record [] "https://nobody.test/x" []).1)
    ∧ (getSelectors [("_default_", selD)] [] "https://nobody.test/x" true).1.isSome = true :=
  c10_default_still_journals [("_default_", selD)] [] "https://nobody.test/x"
    (by decide) (by decide)

def latinFetched : Fetched := { body := [195, 169], encoding := "latin-1" }

/-- Claim C7 counterexample: a successful response declaring latin-1 whose
body is the UTF-8 bytes [0xC3, 0xA9] is returned as the UTF-8 decoding
"é", which differs from its decoding under the declared encoding — the
claim that the body is decoded with the server-declared encoding is false
on the code. -/
theorem c7_counterexample :
    loadHtml (fun _ => Except.ok latinFetched) 5 "https://example.com" [] = (some "é", [])
    ∧ specDeclaredDecode latinFetched.encoding latinFetched.body ≠ some "é" := by
  constructor
  · rfl
  · decide

/-- Claim C7 (amended): for every successful fetch attempt, the response
body is returned as text decoded with the fixed client-chosen UTF-8
encoding (`response.read().decode('utf-8')`), whatever charset the server
declared. -/
theorem c7_fixed_utf8 (attempts : Nat → Except String Fetched) (n : Nat)
    (url : String) (j : List JournalEntry) (f : Fetched) (s : String)
    (h0 : attempts 0 = Except.ok f) (hdec : decodeUtf8 f.body = some s) :
    loadHtml attempts n url j = (some s, j) := by
  rw [loadHtml, loadHtmlLoop, h0]
  simp [hdec]

theorem c7_witness :
    loadHtml (fun _ => Except.ok { body := [104, 105], encoding := "x-unknown" }) 4
      "https://u.test" [] = (some "hi", []) :=
  c7_fixed_utf8 (fun _ => Except.ok { body := [104, 105], encoding := "x-unknown" }) 4
    "https://u.test" [] { body := [104, 105], encoding := "x-unknown" } "hi" rfl (by decide)

/-- The C1 scenario input: one article (with a nested script) amid other
page content. -/
def c1Doc : Forest :=
  Forest.cons (Node.elem "html" [] (Forest.cons (Node.elem "body" []
    (Forest.cons (Node.elem "nav" [] (Forest.cons (Node.text "menu") Forest.nil))
    (Forest.cons (Node.elem "article" []
      (Forest.cons (Node.elem "h1" [] (Forest.cons (Node.text "Title") Forest.nil))
      (Forest.cons (Node.elem "script" [] (Forest.cons (Node.text "evil()") Forest.nil))
      (Forest.cons (Node.elem "p" [] (Forest.cons (Node.text "body text") Forest.nil))
      Forest.nil))))
    Forest.nil))) Forest.nil)) Forest.nil

def c1Sel : Selectors :=
  { include_selectors := ["article"], remove_selectors := ["script", "nav"] }

/-- What the code actually produces on the C1 scenario: the article with the
script STILL inside (only the last remove selector took effect). -/
def c1CodeResult : Forest :=
  Forest.cons (Node.elem "article" []
    (Forest.cons (Node.elem "h1" [] (Forest.cons (Node.text "Title") Forest.nil))
    (Forest.cons (Node.elem "script" [] (Forest.cons (Node.text "evil()") Forest.nil))
    (Forest.cons (Node.elem "p" [] (Forest.cons (Node.text "body text") Forest.nil))
    Forest.nil)))) Forest.nil

/-- Claim C1 (evaluated at the failing scenario): for the rule with
include ["article"] and exclude ["script", "nav"] on a page with one
article holding a nested script, the code leaves the script in the output
— only the last exclude selector takes effect, because the loop re-parses
the never-updated selected_html each iteration — so the serialized output
still matches the exclude selector "script", contradicting the claim that
no excluded element survives. -/
theorem c1_exclude_last_only :
    skimForest c1Doc c1Sel = Except.ok c1CodeResult
    ∧ selectForest "script" c1CodeResult ≠ [] := by
  constructor
  · rfl
  · decide

def c2Sel : Selectors := { include_selectors := ["p"], remove_selectors := ["script"] }

/-- Claim C2 (evaluated at a failing input): when rule resolution succeeds
but every fetch attempt fails, `load_website` does journal the URL with its
accumulated errors, but then fails with the TypeError raised by handing the
None html to BeautifulSoup — not with a FetchExhausted-typed failure
carrying that context as the claim states. -/
theorem c2_exhausted_type_error :
    (loadWebsite (fun _ => Forest.nil) [("example.com", c2Sel)] [] []
        (fun _ => Except.error "timeout") "https://example.com/a" 1 false).result
      = Except.error LoadError.typeErrorNoneHtml
    ∧ (loadWebsite (fun _ => Forest.nil) [("example.com", c2Sel)] [] []
        (fun _ => Except.error "timeout") "https://example.com/a" 1 false).errored
      = [{ url := "https://example.com/a", errors := ["timeout", "timeout"] }] := by
  constructor
  · rfl
  · rfl

theorem urljoin_absolute (base u : String) (h : hasScheme u = true) :
    urljoin base u = u := by
  rw [urljoin]
  have hne : ¬ (u = "") := by
    intro he
    rw [he] at h
    exact absurd h (by decide)
  rw [if_neg hne, if_pos h]

theorem absMap_eq (base : String) :
    (fun kv : String × String => if kv.1 = "href" then (kv.1, urljoin base kv.2) else kv)
    = (fun kv : String × String =>
        if kv.1 = "href" && !hasScheme kv.2 then (kv.1, urljoin base kv.2) else kv) := by
  funext kv
  by_cases h1 : kv.1 = "href"
  · by_cases h2 : hasScheme kv.2
    · have hres : urljoin base kv.2 = kv.2 := urljoin_absolute base kv.2 h2
      simp [h1, h2, hres, Prod.ext_iff]
    · simp [h1, h2]
  · simp [h1]

theorem specMap_no_href (base : String) (attrs : List (String × String))
    (h : (attrs.map Prod.fst).contains "href" = false) :
    attrs.map (fun kv =>
      if kv.1 = "href" && !hasScheme kv.2 then (kv.1, urljoin base kv.2) else kv) = attrs := by
  induction attrs with
  | nil => rfl
  | cons kv rest ih =>
    rw [List.map_cons, List.contains_cons, Bool.or_eq_false_iff] at h
    rw [List.map_cons, ih h.2]
    have hk : ¬ (kv.1 = "href") := by
      have h1 := h.1
      simp only [beq_eq_false_iff_ne] at h1
      exact fun he => h1 he.symm
    simp [hk]

mutual
theorem absolutizeNode_spec (base : String) : (n : Node) →
    absolutizeNode base n = specAbsolutizeNode base n
| Node.text s => rfl
| Node.elem tag attrs children => by
  rw [absolutizeNode, specAbsolutizeNode, absolutizeForest_spec base children]
  congr 1
  by_cases ht : tag = "a"
  · by_cases hh : (attrs.map Prod.fst).contains "href"
    · rw [absMap_eq base]
      have hc1 : ((tag = "a" : Bool) && (attrs.map Prod.fst).contains "href") = true := by
        rw [Bool.and_eq_true]
        exact ⟨decide_eq_true ht, hh⟩
      rw [if_pos hc1, if_pos ht]
    · have hh2 : (attrs.map Prod.fst).contains "href" = false := by simpa using hh
      rw [specMap_no_href base attrs hh2]
      have hc0 : ((tag = "a" : Bool) && (attrs.map Prod.fst).contains "href") = false := by
        rw [hh2, Bool.and_false]
      rw [if_neg (by rw [hc0]; exact Bool.false_ne_true), if_pos ht]
  · have hc0 : ((tag = "a" : Bool) && (attrs.map Prod.fst).contains "href") = false := by
      rw [decide_eq_false ht, Bool.false_and]
    rw [if_neg (by rw [hc0]; exact Bool.false_ne_true), if_neg ht]
theorem absolutizeForest_spec (base : String) : (f : Forest) →
    absolutizeForest base f = specAbsolutizeForest base f
| Forest.nil => rfl
| Forest.cons n f => by
  rw [absolutizeForest, specAbsolutizeForest, absolutizeNode_spec base n,
      absolutizeForest_spec base f]
end

/-- Claim C8: the Absolutize stage rewrites the href of every hyperlink
element with a relative reference to its absolute resolution against the
base URL and leaves already-absolute hrefs and all non-hyperlink content
unchanged — `_make_links_absolute` coincides with the spec-worded stage on
every document; in particular href "/a/b" against base https://x.test/c/d
becomes https://x.test/a/b and https://y.test/z stays https://y.test/z. -/
theorem c8_absolutize :
    (∀ (base : String) (doc : Forest),
      absolutizeForest base doc = specAbsolutizeForest base doc)
    ∧ urljoin "https://x.test/c/d" "/a/b" = "https://x.test/a/b"
    ∧ urljoin "https://x.test/c/d" "https://y.test/z" = "https://y.test/z" := by
  refine ⟨fun base doc => absolutizeForest_spec base doc, by decide, by decide⟩
